import Mathlib

/-!
Verification of the ShootCleaner batch-enhancement pipeline.

This file gives a shallow embedding, in Lean 4, of the enhancement
pipeline of the repository: the instruction compiler
(`ImageProcessor.generateEnhancementCommands`), the external executor
boundary (`ImageProcessor.executeCommand`), the per-job instruction
chain (`ImageProcessor.enhanceImage`), the batch engine
(`ImageProcessor.enhanceBatch`), artifact naming
(`ImageProcessor.generateOutputFileName`), and the edit-instruction
interpreter of the editing service
(`ImageMagickService.parseAndApplyEdit` and the loop of `editImage`).

Numbers: the source manipulates JavaScript numbers.  The embedding uses
exact rationals (`ℚ`); IEEE-754 rounding is outside the embedding, and
each place where that matters is noted on the definition.
-/

namespace ShootCleaner

/-! ### Decimal printing of numbers (JS template-string interpolation)

The source interpolates numbers into command strings
(template literals such as `${settings.brightness}x${settings.contrast}`).
JavaScript prints an integral number without a fractional part
(`(120).toString() = "120"`) and a number with a finite short decimal
expansion in plain decimal notation (`(0.5).toString() = "0.5"`).
`decString` is a fuel-based decimal printer for naturals, so that it
reduces by `rfl`/`decide`. -/

/-- Reversed decimal digits of `n`; `fuel ≥ n` suffices for completion. -/
def decRevAux : Nat → Nat → List Char
  | 0, _ => []
  | fuel + 1, n =>
    if n = 0 then [] else Nat.digitChar (n % 10) :: decRevAux fuel (n / 10)

/-- Decimal string of a natural number, as JS `Number#toString` prints it. -/
def decString (n : Nat) : String :=
  if n = 0 then "0" else String.mk (decRevAux n n).reverse

/-- Value of a reversed digit string (least-significant digit first);
round-trip inverse of `decRevAux`, used to prove `decString` injective. -/
def decValRev : List Char → Nat
  | [] => 0
  | c :: cs => (c.toNat - 48) + 10 * decValRev cs

/-- Decimal string of an integer (JS prints a leading `-` for negatives). -/
def jsIntToString (i : Int) : String :=
  if i < 0 then "-" ++ decString i.natAbs else decString i.toNat

/-- Smallest `k ≤ 40` with `d ∣ 10 ^ k`, if any.  Every number produced by
the UI sliders is a short decimal, whose denominator divides a small power
of ten. -/
def findPow10 (d : Nat) : Option Nat :=
  (List.range 41).find? fun k => d ∣ 10 ^ k

/-- Pad a digit string with leading zeros up to length `k`. -/
def padZeros (s : String) (k : Nat) : String :=
  String.mk (List.replicate (k - s.length) '0' ++ s.data)

/-- JS `Number#toString` on an exact rational value: integral values print
with no fractional part, values with a finite decimal expansion print in
plain decimal notation with no trailing zeros.  (Values with no finite
decimal expansion cannot arise from the source's slider arithmetic; the
final fallback is never reached by any theorem below.) -/
def jsNumToString (q : ℚ) : String :=
  if q.den = 1 then jsIntToString q.num
  else
    match findPow10 q.den with
    | some k =>
      let sign := if q.num < 0 then "-" else ""
      let m := q.num.natAbs * (10 ^ k / q.den)
      sign ++ decString (m / 10 ^ k) ++ "." ++ padZeros (decString (m % 10 ^ k)) k
    | none => jsIntToString q.num ++ "/" ++ decString q.den

/-! ### The instruction compiler (`ImageProcessor.generateEnhancementCommands`)

Transcribed from `src/unnamed/part_009`, lines 415–521. -/

/-- The output-format union type `'jpeg' | 'png' | 'tiff' | 'webp'` of
`EnhancementSettings.format` (`src/New folder/src/types/index.ts`). -/
inductive OutputFormat where
  | jpeg | png | tiff | webp
deriving DecidableEq, Repr

/-- JS `format.toUpperCase()` on the four format literals. -/
def fmtUpper : OutputFormat → String
  | .jpeg => "JPEG"
  | .png => "PNG"
  | .tiff => "TIFF"
  | .webp => "WEBP"

/-- The flat `EnhancementSettings` record
(`src/New folder/src/types/index.ts`, lines 186–203).  Sliders are JS
numbers, embedded as exact rationals. -/
structure EnhancementSettings where
  brightness : ℚ
  contrast : ℚ
  saturation : ℚ
  exposure : ℚ
  highlights : ℚ
  shadows : ℚ
  temperature : ℚ
  tint : ℚ
  sharpening : ℚ
  noiseReduction : ℚ
  format : OutputFormat
  quality : ℚ
  resize : Bool
  width : ℚ
  height : ℚ
  maintainAspectRatio : Bool
deriving DecidableEq, Repr

/-- `ImageMagickCommand` (`src/New folder/src/types/index.ts`, lines 18–23):
an operation name, the positional `params` filled by the compiler, and the
keyed `parameters` record consumed by `buildSingleOperation`.  The
`description` field is never read by the pipeline and is omitted. -/
structure ImageMagickCommand where
  operation : String
  params : List String := []
  parameters : List (String × ℚ) := []
deriving DecidableEq, Repr

/-- `ImageProcessor.generateColorMatrix` (`part_009`, lines 505–512):
`tempFactor = 1 + (temperature / 100) * 0.1`,
`tintFactor = 1 + (tint / 100) * 0.05`, interpolated into the matrix
string.  The literals `0.1` and `0.05` are embedded as exact rationals. -/
def generateColorMatrix (temperature tint : ℚ) : String :=
  jsNumToString (1 + temperature / 100 * (1 / 10)) ++ " 0 0 0 " ++
    jsNumToString (1 + tint / 100 * (1 / 20)) ++ " 0 1 0 0 0 0 0 1"

/-- Models `Math.pow(2, e)` in the exposure branch (`part_009`, line 435).
Exact for integral exposures (the value is `2 ^ e.num` when `e.den = 1`);
non-integral exponents yield irrational values that the source can only
approximate in floating point, outside this exact embedding, so every
theorem using `pow2` assumes an integral exposure. -/
def pow2 (e : ℚ) : ℚ := (2 : ℚ) ^ e.num

/-- `ImageProcessor.generateEnhancementCommands` (`part_009`, lines
415–500): one `if`-guarded push per adjustment, in source order, followed
by the unconditional `format` push and the `quality` push for `'jpeg'`. -/
def generateEnhancementCommands (s : EnhancementSettings) : List ImageMagickCommand :=
  (if s.brightness ≠ 0 ∨ s.contrast ≠ 0 then
    [{ operation := "brightness-contrast",
       params := [jsNumToString s.brightness ++ "x" ++ jsNumToString s.contrast] }]
   else []) ++
  ((if s.saturation ≠ 0 then
    [{ operation := "modulate",
       params := ["100," ++ jsNumToString (100 + s.saturation) ++ ",100"] }]
   else []) ++
  ((if s.exposure ≠ 0 then
    [{ operation := "evaluate", params := ["multiply", jsNumToString (pow2 s.exposure)] }]
   else []) ++
  ((if s.highlights ≠ 0 ∨ s.shadows ≠ 0 then
    [{ operation := "shadows-highlights",
       params := [jsNumToString |s.shadows| ++ "x" ++ jsNumToString |s.highlights|] }]
   else []) ++
  ((if s.temperature ≠ 0 ∨ s.tint ≠ 0 then
    [{ operation := "color-matrix", params := [generateColorMatrix s.temperature s.tint] }]
   else []) ++
  ((if s.sharpening > 0 then
    [{ operation := "unsharp",
       params := [jsNumToString (s.sharpening / 100 * 2) ++ "x1+" ++
         jsNumToString (s.sharpening / 100) ++ "+0"] }]
   else []) ++
  ((if s.noiseReduction > 0 then [{ operation := "despeckle" }] else []) ++
  ((if s.resize then
    [{ operation := "resize",
       params := [jsNumToString s.width ++ "x" ++ jsNumToString s.height ++
         (if s.maintainAspectRatio then ">" else "!")] }]
   else []) ++
  ({ operation := "format", params := [fmtUpper s.format] } ::
    (if s.format = OutputFormat.jpeg then
      [{ operation := "quality", params := [jsNumToString s.quality] }]
     else [])))))))))

/-! ### The external executor boundary (`ImageProcessor.executeCommand`)

Transcribed from `src/unnamed/part_009`, lines 74–116.  The underlying
Electron IPC call `window.electronAPI.executeImageMagick` is the external
environment: it is modelled as a function from the call's arguments to an
outcome that is either a reply object (`success` flag plus optional
`error`) or a thrown exception, embedded as `Except` with the thrown
error's message. -/

/-- The reply object of `window.electronAPI.executeImageMagick`. -/
structure IpcReply where
  success : Bool
  error : Option String := none
deriving DecidableEq, Repr

/-- The IPC environment: what the external ImageMagick call does for given
(command, inputPath, outputPath) arguments.  `Except.error` models a
thrown exception (its `message`). -/
def IpcEnv : Type := String → String → String → Except String IpcReply

/-- The execution environment of `executeCommand`: `some ipc` models the
Electron branch (`window.electronAPI` present), `none` the browser
fallback. -/
def ExecEnv : Type := Option IpcEnv

/-- `EnhancementResult` (`part_009`, lines 14–21). -/
structure EnhancementResult where
  success : Bool
  outputPath : Option String := none
  error : Option String := none
  command : Option String := none
  originalPath : String
  enhancementType : String
deriving DecidableEq, Repr

/-- `startsWithChars pat l` : `l` starts with `pat`. -/
def startsWithChars : List Char → List Char → Bool
  | [], _ => true
  | _ :: _, [] => false
  | p :: ps, c :: cs => p == c && startsWithChars ps cs

/-- `containsChars pat l` : `pat` occurs as a contiguous run in `l`. -/
def containsChars (pat : List Char) : List Char → Bool
  | [] => startsWithChars pat []
  | l@(_ :: rest) => startsWithChars pat l || containsChars pat rest

/-- JS `String#includes`. -/
def jsIncludes (s pat : String) : Bool := containsChars pat.data s.data

/-- `ImageProcessor.extractEnhancementType` (`part_009`, lines 352–359). -/
def extractEnhancementType (command : String) : String :=
  if jsIncludes command "brightness-contrast" then "brightness_contrast"
  else if jsIncludes command "unsharp" then "sharpness"
  else if jsIncludes command "despeckle" then "denoise"
  else if jsIncludes command "auto-level" then "auto_level"
  else if jsIncludes command "normalize" then "normalize"
  else "enhancement"

/-- `ImageProcessor.executeCommand` (`part_009`, lines 74–116): in the
Electron branch the IPC reply is reshaped into an `EnhancementResult`
(`outputPath` only on success); a thrown exception is caught and converted
to a failed result; the browser branch returns the mock success. -/
def executeCommand (env : ExecEnv) (command inputPath outputPath : String) :
    EnhancementResult :=
  match env with
  | some ipc =>
    match ipc command inputPath outputPath with
    | Except.ok reply =>
      { success := reply.success,
        outputPath := if reply.success then some outputPath else none,
        error := reply.error,
        command := some command,
        originalPath := inputPath,
        enhancementType := extractEnhancementType command }
    | Except.error e =>
      { success := false,
        error := some e,
        originalPath := inputPath,
        enhancementType := extractEnhancementType command,
        command := some command }
  | none =>
    { success := true,
      outputPath := some outputPath,
      originalPath := inputPath,
      enhancementType := extractEnhancementType command,
      command := some command }

/-! ### Single-operation command building (`ImageProcessor.buildSingleOperation`)

Transcribed from `src/unnamed/part_009`, lines 317–347. -/

/-- JS `x || d` on a possibly-absent number: `undefined` and `0` are falsy
and give the default. -/
def jsOrDefault (x : Option ℚ) (d : ℚ) : ℚ :=
  match x with
  | some v => if v = 0 then d else v
  | none => d

/-- Look a key up in a `parameters` record. -/
def paramsGet (ps : List (String × ℚ)) (k : String) : Option ℚ :=
  (ps.find? fun p => p.1 == k).map Prod.snd

/-- `ImageProcessor.buildSingleOperation` (`part_009`, lines 325–347).
The default branch produces the bare copy command. -/
def buildSingleOperation (operation : String) (parameters : List (String × ℚ)) : String :=
  if operation = "brighten" then
    "convert INPUT -brightness-contrast " ++
      jsNumToString (jsOrDefault (paramsGet parameters "brightness") 10) ++ "x0 OUTPUT"
  else if operation = "enhance" then
    "convert INPUT -brightness-contrast " ++
      jsNumToString (jsOrDefault (paramsGet parameters "brightness") 0) ++ "x" ++
      jsNumToString (jsOrDefault (paramsGet parameters "contrast") 0) ++ " -unsharp 0x" ++
      jsNumToString (jsOrDefault (paramsGet parameters "sharpness") 0) ++ " OUTPUT"
  else if operation = "sharpen" then
    "convert INPUT -unsharp 0x" ++
      jsNumToString (jsOrDefault (paramsGet parameters "amount") 1) ++ " OUTPUT"
  else if operation = "denoise" then "convert INPUT -despeckle OUTPUT"
  else if operation = "contrast" then
    "convert INPUT -brightness-contrast 0x" ++
      jsNumToString (jsOrDefault (paramsGet parameters "amount") 10) ++ " OUTPUT"
  else if operation = "auto-level" then "convert INPUT -auto-level OUTPUT"
  else if operation = "normalize" then "convert INPUT -normalize OUTPUT"
  else "convert INPUT OUTPUT"

/-- `ImageProcessor.buildImageMagickCommand` (`part_009`, lines 317–320). -/
def buildImageMagickCommand (cmd : ImageMagickCommand) : String :=
  buildSingleOperation cmd.operation cmd.parameters

/-! ### Artifact naming (`ImageProcessor.generateOutputFileName`)

Transcribed from `src/unnamed/part_009`, lines 517–521. -/

/-- `originalName.replace(/\.[^/.]+$/, '')`: the regex matches a final
`.` followed by one or more characters none of which is `/` or `.`,
anchored at the end.  Scanning the reversed characters: the maximal final
run free of `.` and `/` must be non-empty and be preceded by a `.` for
the match; on a match the dot and the run are removed. -/
def jsStripExt (s : String) : String :=
  let rev := s.data.reverse
  let tail := rev.takeWhile fun c => !(c == '.' || c == '/')
  match rev.drop tail.length with
  | '.' :: restRev => if tail.isEmpty then s else String.mk restRev.reverse
  | _ => s

/-- `originalName.split('.').pop()`: the segment after the last `.`, or
the whole name when it has no dot. -/
def jsExtOf (s : String) : String :=
  if s.data.contains '.' then String.mk (s.data.reverse.takeWhile (· != '.')).reverse
  else s

/-- `ImageProcessor.generateOutputFileName` (`part_009`, lines 517–521):
`` `${nameWithoutExt}_${operation}_${step + 1}.${ext}` `` with `step` the
0-based index. -/
def generateOutputFileName (originalName operation : String) (step : Nat) : String :=
  jsStripExt originalName ++ "_" ++ operation ++ "_" ++ decString (step + 1) ++ "." ++
    jsExtOf originalName

/-! ### Per-job instruction chain (`ImageProcessor.enhanceImage`)

Transcribed from `src/unnamed/part_009`, lines 121–154. -/

/-- `ImageAnalysisResult`, restricted to the two fields the pipeline
consumes (`filename` and `commands`); absent `commands` is embedded as the
empty list, matching the source's early return for both. -/
structure ImageAnalysisResult where
  filename : String
  commands : List ImageMagickCommand
deriving DecidableEq, Repr

/-- JS truthiness of `result.outputPath` (`undefined` and `''` falsy). -/
def jsTruthyOptStr : Option String → Bool
  | none => false
  | some s => s ≠ ""

/-- The loop body of `enhanceImage` (`part_009`, lines 133–151): one
result per command; the input of the next step becomes the reported
output path only when the step succeeded (with a truthy output path). -/
def enhanceImageGo (env : ExecEnv) (filename outputDir : String) :
    List ImageMagickCommand → Nat → String → List EnhancementResult
  | [], _, _ => []
  | cmd :: rest, i, cur =>
    let outputFileName := generateOutputFileName filename cmd.operation i
    let outputPath := outputDir ++ "/" ++ outputFileName
    let command := buildImageMagickCommand cmd
    let result := executeCommand env command cur outputPath
    result :: enhanceImageGo env filename outputDir rest (i + 1)
      (if result.success && jsTruthyOptStr result.outputPath then
        result.outputPath.getD cur
       else cur)

/-- `ImageProcessor.enhanceImage` (`part_009`, lines 121–154). -/
def enhanceImage (env : ExecEnv) (imagePath : String) (analysis : ImageAnalysisResult)
    (outputDir : String) : List EnhancementResult :=
  if analysis.commands.isEmpty then []
  else enhanceImageGo env analysis.filename outputDir analysis.commands 0 imagePath

/-! ### Batch engine (`ImageProcessor.enhanceBatch`)

Transcribed from `src/unnamed/part_009`, lines 159–196.  The result is a
JS object keyed by `item.path`; assignment to an object replaces the
entry of an existing key in place and otherwise appends a new entry.  The
progress callback does not influence the returned results and is not part
of this embedding. -/

/-- JS object assignment `o[k] = v` on an entry list. -/
def jsSet {α : Type} : List (String × α) → String → α → List (String × α)
  | [], k, v => [(k, v)]
  | (k', v') :: rest, k, v =>
    if k' = k then (k', v) :: rest else (k', v') :: jsSet rest k v

/-- JS object read `o[k]` on an entry list. -/
def jsGet {α : Type} : List (String × α) → String → Option α
  | [], _ => none
  | (k', v') :: rest, k => if k' = k then some v' else jsGet rest k

/-- The per-job try/catch of `enhanceBatch` (`part_009`, lines 173–188):
a job that throws is converted into the single `batch_error` failed
result. -/
def runJobCaught (runJob : String → ImageAnalysisResult → Except String (List EnhancementResult))
    (path : String) (analysis : ImageAnalysisResult) : List EnhancementResult :=
  match runJob path analysis with
  | Except.ok rs => rs
  | Except.error e =>
    [{ success := false, error := some e, originalPath := path,
       enhancementType := "batch_error" }]

/-- The loop of `enhanceBatch`, generic in the per-job runner (so that a
job that throws — `Except.error` — can be expressed). -/
def enhanceBatchWith (runJob : String → ImageAnalysisResult → Except String (List EnhancementResult))
    (images : List (String × ImageAnalysisResult)) : List (String × List EnhancementResult) :=
  images.foldl (fun acc item => jsSet acc item.1 (runJobCaught runJob item.1 item.2)) []

/-- `ImageProcessor.enhanceBatch` (`part_009`, lines 159–196), with the
actual per-job runner `enhanceImage` (which, in the embedding, never
throws). -/
def enhanceBatch (env : ExecEnv) (images : List (String × ImageAnalysisResult))
    (outputDir : String) : List (String × List EnhancementResult) :=
  enhanceBatchWith (fun path analysis => Except.ok (enhanceImage env path analysis outputDir))
    images

/-! ### Edit-instruction interpreter (`ImageMagickService.parseAndApplyEdit`)

Transcribed from `src/unnamed/part_008`, lines 236–368, together with the
edit loop of `editImage` (lines 87–93).  A `sharp` pipeline is embedded
as the list of operations queued on it; `parseFloat` of a missing or
non-numeric value is `NaN`, embedded as `none`. -/

/-- ASCII lower-casing of one character (JS `toLowerCase`; the
instructions the service receives are ASCII). -/
def jsCharToLower (c : Char) : Char :=
  if 65 ≤ c.toNat ∧ c.toNat ≤ 90 then Char.ofNat (c.toNat + 32) else c

/-- JS `String#toLowerCase` on ASCII strings. -/
def jsToLower (s : String) : String := String.mk (s.data.map jsCharToLower)

/-- Splitting on one separator character, accumulating the current
segment; models JS `split(' ')` (no collapsing of adjacent separators,
`''.split(' ') = ['']`). -/
def splitOnCharAux (sep : Char) : List Char → List Char → List (List Char)
  | [], cur => [cur.reverse]
  | c :: cs, cur =>
    if c = sep then cur.reverse :: splitOnCharAux sep cs []
    else splitOnCharAux sep cs (c :: cur)

/-- JS `String#split` with a single-character separator. -/
def jsSplit (s : String) (sep : Char) : List String :=
  (splitOnCharAux sep s.data []).map String.mk

/-- Value of a big-endian digit run. -/
def digitsVal (cs : List Char) : ℚ :=
  cs.foldl (fun acc c => 10 * acc + (c.toNat - 48 : ℕ)) 0

/-- JS `parseFloat` on the decimal part of the grammar it accepts: an
optional sign, then digits with an optional fractional part — at least
one digit overall; trailing garbage is ignored; no parse is `NaN`
(`none`).  (Exponent notation is not consumed by any instruction the
service receives and is not modelled.) -/
def parseUnsigned (cs : List Char) : Option ℚ :=
  let intPart := cs.takeWhile Char.isDigit
  let rest := cs.dropWhile Char.isDigit
  match rest with
  | '.' :: rest2 =>
    let fracPart := rest2.takeWhile Char.isDigit
    if intPart.isEmpty && fracPart.isEmpty then none
    else some (digitsVal intPart + digitsVal fracPart / 10 ^ fracPart.length)
  | _ => if intPart.isEmpty then none else some (digitsVal intPart)

/-- JS `parseFloat` (leading spaces skipped, optional sign). -/
def jsParseFloat (s : String) : Option ℚ :=
  match s.data.dropWhile (· == ' ') with
  | '-' :: rest => (parseUnsigned rest).map Neg.neg
  | '+' :: rest => parseUnsigned rest
  | rest => parseUnsigned rest

/-- `parseFloat` applied to `parts[1]`, which may be `undefined`
(`parseFloat(undefined)` is `NaN`). -/
def jsParseFloatOpt : Option String → Option ℚ
  | some s => jsParseFloat s
  | none => none

/-- JS `x > 0` with `NaN > 0 = false`. -/
def jsGtZero : Option ℚ → Bool
  | some v => v > 0
  | none => false

/-- JS `x || 1` (`NaN` and `0` falsy). -/
def jsOrOne : Option ℚ → ℚ
  | some v => if v = 0 then 1 else v
  | none => 1

/-- JS `1 + x / 100` with `NaN` propagation. -/
def jsOnePlusHundredth : Option ℚ → Option ℚ
  | some v => some (1 + v / 100)
  | none => none

/-- JS string interpolation of a parsed number (`NaN` prints `"NaN"`). -/
def jsNumOptToString : Option ℚ → String
  | some q => jsNumToString q
  | none => "NaN"

/-- Interpolation of `value` itself (a possibly-`undefined` string). -/
def jsValueToString : Option String → String
  | some s => s
  | none => "undefined"

/-- JS `value > '0'`: lexicographic string comparison; `undefined`
compares `false`. -/
def jsStrGtZero : Option String → Bool
  | some s => "0" < s
  | none => false

/-- One operation queued on a `sharp` pipeline by `parseAndApplyEdit`. -/
inductive SharpOp where
  | modulateBrightness (b : Option ℚ)
  | gamma (g : ℚ)
  | modulateSaturation (s : Option ℚ)
  | tintRGB (r g b : ℕ)
  | sharpen (amount : ℚ)
  | blur (amount : Option ℚ)
deriving DecidableEq, Repr

/-- The object returned by `parseAndApplyEdit`, plus whether the branch
logged the unknown-command warning (`console.warn`). -/
structure EditStep where
  sharpOps : List SharpOp
  applied : Bool
  description : String
  warned : Bool := false
deriving DecidableEq, Repr

/-- The operation keys `parseAndApplyEdit` recognizes (its `case`
labels). -/
def knownEditCommands : List String :=
  ["brightness", "contrast", "saturation", "temperature", "sharpen", "blur",
   "sepia", "vignette", "resize"]

/-- `ImageMagickService.parseAndApplyEdit` (`part_008`, lines 236–368).
The instruction is lower-cased and split on spaces; the first word
selects the branch and the second is its value.  Branches that fall
through (`blur`/`vignette` with a non-positive amount) reach the final
`Not applied` return; an unknown command warns and applies nothing.  The
`styleProfile` argument is unused by the source body and omitted; the
surrounding `try`/`catch` is unreachable in the embedding because no
modelled operation throws. -/
def parseAndApplyEdit (sp : List SharpOp) (instruction : String) : EditStep :=
  let parts := jsSplit (jsToLower instruction) ' '
  let command := parts.headD ""
  let value : Option String := parts.get? 1
  let pv := jsParseFloatOpt value
  if command = "brightness" then
    { sharpOps := sp ++ [SharpOp.modulateBrightness (jsOnePlusHundredth pv)],
      applied := true,
      description := "Brightness " ++ (if jsStrGtZero value then "+" else "") ++
        jsValueToString value ++ "%" }
  else if command = "contrast" then
    { sharpOps := sp ++ [SharpOp.gamma (if jsGtZero pv then 6 / 5 else 4 / 5)],
      applied := true,
      description := "Contrast " ++ (if jsStrGtZero value then "+" else "") ++
        jsValueToString value ++ "%" }
  else if command = "saturation" then
    { sharpOps := sp ++ [SharpOp.modulateSaturation (jsOnePlusHundredth pv)],
      applied := true,
      description := "Saturation " ++ (if jsStrGtZero value then "+" else "") ++
        jsValueToString value ++ "%" }
  else if command = "temperature" then
    if jsGtZero pv then
      { sharpOps := sp ++ [SharpOp.tintRGB 255 245 230], applied := true,
        description := "Temperature +" ++ jsNumOptToString pv ++ "K (warmer)" }
    else
      { sharpOps := sp ++ [SharpOp.tintRGB 230 245 255], applied := true,
        description := "Temperature " ++ jsNumOptToString pv ++ "K (cooler)" }
  else if command = "sharpen" then
    { sharpOps := sp ++ [SharpOp.sharpen (jsOrOne pv)], applied := true,
      description := "Sharpen " ++ jsNumToString (jsOrOne pv) ++ "x" }
  else if command = "blur" then
    if jsGtZero pv then
      { sharpOps := sp ++ [SharpOp.blur pv], applied := true,
        description := "Blur " ++ jsNumOptToString pv ++ "px" }
    else { sharpOps := sp, applied := false, description := "Not applied: " ++ instruction }
  else if command = "sepia" then
    { sharpOps := sp ++ [SharpOp.modulateSaturation (some (3 / 10)), SharpOp.tintRGB 255 230 180],
      applied := true,
      description := "Sepia " ++ jsValueToString value ++ "%" }
  else if command = "vignette" then
    if jsGtZero pv then
      { sharpOps := sp ++ [SharpOp.modulateBrightness (some (9 / 10))], applied := true,
        description := "Vignette " ++ jsNumOptToString pv }
    else { sharpOps := sp, applied := false, description := "Not applied: " ++ instruction }
  else if command = "resize" then
    { sharpOps := sp, applied := false, description := "Resize handled separately" }
  else
    { sharpOps := sp, applied := false, description := "Unknown command: " ++ command,
      warned := true }

/-- The operation keys `buildSingleOperation` recognizes (its `case`
labels, `part_009` lines 327–343). -/
def knownBuildOps : List String :=
  ["brighten", "enhance", "sharpen", "denoise", "contrast", "auto-level", "normalize"]

/-- The edit loop of `ImageMagickService.editImage` (`part_008`, lines
87–93): each instruction is interpreted; only an applied edit advances
the pipeline and records its description. -/
def applyEditInstructions : List String → List SharpOp → List String →
    List SharpOp × List String
  | [], sp, descs => (sp, descs)
  | inst :: rest, sp, descs =>
    let edit := parseAndApplyEdit sp inst
    if edit.applied then applyEditInstructions rest edit.sharpOps (descs ++ [edit.description])
    else applyEditInstructions rest sp descs

/-! ### Concrete inputs used by counterexamples and witnesses -/

/-- Default used with `List.getD` (never selected by an in-bounds read). -/
def dummyResult : EnhancementResult :=
  { success := false, originalPath := "", enhancementType := "" }

/-- The all-neutral settings record of the claims: every slider `0`,
`resize` off, output `jpeg` at quality `90` (the UI defaults for the
output controls). -/
def neutralJpegSettings : EnhancementSettings :=
  { brightness := 0, contrast := 0, saturation := 0, exposure := 0,
    highlights := 0, shadows := 0, temperature := 0, tint := 0,
    sharpening := 0, noiseReduction := 0, format := OutputFormat.jpeg,
    quality := 90, resize := false, width := 1920, height := 1080,
    maintainAspectRatio := true }

/-- Neutral settings except `saturation = 20`. -/
def satSettings : EnhancementSettings := { neutralJpegSettings with saturation := 20 }

/-- Neutral settings except `exposure = -1`. -/
def expNeg1Settings : EnhancementSettings := { neutralJpegSettings with exposure := -1 }

/-- An IPC environment whose underlying call always reports failure. -/
def failEnv : ExecEnv :=
  some fun _ _ _ => Except.ok { success := false, error := some "convert failed" }

/-- An IPC environment whose underlying call always succeeds. -/
def okEnv : ExecEnv := some fun _ _ _ => Except.ok { success := true }

/-- An IPC environment whose underlying call always throws. -/
def throwEnv : IpcEnv := fun _ _ _ => Except.error "spawn ENOENT"

/-- A two-instruction analysis for chaining tests. -/
def twoStepAnalysis : ImageAnalysisResult :=
  { filename := "photo.jpg",
    commands := [{ operation := "brighten" }, { operation := "sharpen" }] }

/-- An empty analysis (no commands) for batch tests. -/
def emptyAnalysis (name : String) : ImageAnalysisResult :=
  { filename := name, commands := [] }

/-- A per-job runner that throws on the job at path `b.jpg`. -/
def runJobFail : String → ImageAnalysisResult → Except String (List EnhancementResult) :=
  fun path _ => if path = "b.jpg" then Except.error "boom" else Except.ok []

/-- A per-job runner that always succeeds with no results. -/
def runJobOk : String → ImageAnalysisResult → Except String (List EnhancementResult) :=
  fun _ _ => Except.ok []

/-- A two-job batch with distinct paths. -/
def imagesW : List (String × ImageAnalysisResult) :=
  [("a.jpg", emptyAnalysis "a.jpg"), ("b.jpg", emptyAnalysis "b.jpg")]

/-- A one-instruction analysis whose operation key is unrecognized. -/
def unknownOpAnalysis : ImageAnalysisResult :=
  { filename := "photo.jpg", commands := [{ operation := "vintage" }] }

/-! ## Claim theorems -/

/-- Splitting a right-nested eight-fold append before its tail. -/
lemma append8_split {α : Type} (l₁ l₂ l₃ l₄ l₅ l₆ l₇ l₈ tail : List α) :
    ∃ pre, l₁ ++ (l₂ ++ (l₃ ++ (l₄ ++ (l₅ ++ (l₆ ++ (l₇ ++ (l₈ ++ tail))))))) = pre ++ tail :=
  ⟨l₁ ++ (l₂ ++ (l₃ ++ (l₄ ++ (l₅ ++ (l₆ ++ (l₇ ++ l₈)))))), by simp [List.append_assoc]⟩

/-- Claim C4 (corrected): for all-neutral settings the compiler emits no
adjustment instruction at all — but the instruction list is not empty: it
always carries the trailing `format` instruction, plus the `quality`
instruction when the output format is `jpeg`. -/
theorem spec_C4_theorem (s : EnhancementSettings)
    (hb : s.brightness = 0) (hc : s.contrast = 0) (hsat : s.saturation = 0)
    (he : s.exposure = 0) (hh : s.highlights = 0) (hsh : s.shadows = 0)
    (ht : s.temperature = 0) (hti : s.tint = 0) (hsp : s.sharpening = 0)
    (hn : s.noiseReduction = 0) (hr : s.resize = false) :
    generateEnhancementCommands s =
      { operation := "format", params := [fmtUpper s.format] } ::
        (if s.format = OutputFormat.jpeg then
          [{ operation := "quality", params := [jsNumToString s.quality] }]
         else []) := by
  simp [generateEnhancementCommands, hb, hc, hsat, he, hh, hsh, ht, hti, hsp, hn, hr]

/-- Claim C4, counterexample to the claim as stated: the all-default
settings record compiles to the two-element list `[format JPEG,
quality 90]`, not to the empty list. -/
theorem spec_C4_counterexample :
    generateEnhancementCommands neutralJpegSettings =
      [{ operation := "format", params := ["JPEG"] },
       { operation := "quality", params := ["90"] }] ∧
    generateEnhancementCommands neutralJpegSettings ≠ [] := by decide

/-- Witness for `spec_C4_theorem` at the all-neutral jpeg settings. -/
theorem spec_C4_witness :
    (neutralJpegSettings.brightness = 0 ∧ neutralJpegSettings.resize = false) ∧
    generateEnhancementCommands neutralJpegSettings =
      { operation := "format", params := [fmtUpper neutralJpegSettings.format] } ::
        (if neutralJpegSettings.format = OutputFormat.jpeg then
          [{ operation := "quality", params := [jsNumToString neutralJpegSettings.quality] }]
         else []) :=
  ⟨⟨by decide, by decide⟩,
    spec_C4_theorem neutralJpegSettings (by decide) (by decide) (by decide) (by decide)
      (by decide) (by decide) (by decide) (by decide) (by decide) (by decide) (by decide)⟩

/-- Claim C5 (corrected): with only `saturation = 20` set, the compiler
produces exactly one adjustment instruction — `modulate` with parameter
`100,120,100` — followed by the unconditional trailing `format`
instruction (plus `quality` when the format is `jpeg`), so the whole list
has more than one element. -/
theorem spec_C5_theorem (s : EnhancementSettings)
    (hb : s.brightness = 0) (hc : s.contrast = 0) (hsat : s.saturation = 20)
    (he : s.exposure = 0) (hh : s.highlights = 0) (hsh : s.shadows = 0)
    (ht : s.temperature = 0) (hti : s.tint = 0) (hsp : s.sharpening = 0)
    (hn : s.noiseReduction = 0) (hr : s.resize = false) :
    generateEnhancementCommands s =
      { operation := "modulate", params := ["100,120,100"] } ::
      { operation := "format", params := [fmtUpper s.format] } ::
        (if s.format = OutputFormat.jpeg then
          [{ operation := "quality", params := [jsNumToString s.quality] }]
         else []) := by
  have hparam : "100," ++ jsNumToString (100 + (20 : ℚ)) ++ ",100" = "100,120,100" := by
    rw [show (100 + 20 : ℚ) = 120 from by norm_num]
    decide
  simp [generateEnhancementCommands, hb, hc, hsat, he, hh, hsh, ht, hti, hsp, hn, hr, hparam]

/-- Claim C5, counterexample to the claim as stated: with only
`saturation = 20` the compiled list has three instructions (headed by
`modulate`), not exactly one. -/
theorem spec_C5_counterexample :
    (generateEnhancementCommands satSettings).length = 3 ∧
    ((generateEnhancementCommands satSettings).headD
        { operation := "" }).operation = "modulate" ∧
    (generateEnhancementCommands satSettings).length ≠ 1 := by decide

/-- Witness for `spec_C5_theorem` at the saturation-only settings. -/
theorem spec_C5_witness :
    (satSettings.saturation = 20 ∧ satSettings.brightness = 0) ∧
    generateEnhancementCommands satSettings =
      { operation := "modulate", params := ["100,120,100"] } ::
      { operation := "format", params := [fmtUpper satSettings.format] } ::
        (if satSettings.format = OutputFormat.jpeg then
          [{ operation := "quality", params := [jsNumToString satSettings.quality] }]
         else []) :=
  ⟨⟨by decide, by decide⟩,
    spec_C5_theorem satSettings (by decide) (by decide) (by decide) (by decide)
      (by decide) (by decide) (by decide) (by decide) (by decide) (by decide) (by decide)⟩

/-- Claim C6 (confirmed): whenever `exposure ≠ 0`, the compiled list
contains the `evaluate` instruction whose multiply factor is
`2 ^ exposure` — exponential, not linear: `pow2 1 = 2`, `pow2 (-1) = 1/2`,
`pow2 2 = 4`.  The integrality hypothesis marks the domain on which
`pow2` is an exact model of the source's `Math.pow(2, exposure)`:
non-integral exposures denote irrational values realizable only in
floating point. -/
theorem spec_C6_theorem (s : EnhancementSettings)
    (hexp : s.exposure ≠ 0) (hden : s.exposure.den = 1) :
    ({ operation := "evaluate",
       params := ["multiply", jsNumToString (pow2 s.exposure)] } : ImageMagickCommand) ∈
        generateEnhancementCommands s ∧
    pow2 1 = 2 ∧ pow2 (-1) = 1 / 2 ∧ pow2 2 = 4 := by
  refine ⟨?_, ?_, ?_, ?_⟩
  · rw [generateEnhancementCommands]
    apply List.mem_append_right
    apply List.mem_append_right
    apply List.mem_append_left
    simp [hexp]
  · rw [pow2, show (1 : ℚ).num = 1 from by decide]
    norm_num
  · rw [pow2, show ((-1 : ℚ)).num = -1 from by decide]
    norm_num
  · rw [pow2, show (2 : ℚ).num = 2 from by decide]
    norm_num

/-- Witness for `spec_C6_theorem` at `exposure = -1`. -/
theorem spec_C6_witness :
    (expNeg1Settings.exposure ≠ 0 ∧ expNeg1Settings.exposure.den = 1) ∧
    (({ operation := "evaluate",
        params := ["multiply", jsNumToString (pow2 expNeg1Settings.exposure)] } :
          ImageMagickCommand) ∈ generateEnhancementCommands expNeg1Settings ∧
     pow2 1 = 2 ∧ pow2 (-1) = 1 / 2 ∧ pow2 2 = 4) :=
  ⟨⟨by decide, by decide⟩, spec_C6_theorem expNeg1Settings (by decide) (by decide)⟩

/-- Claim C9 (confirmed): compilation is a pure function of the settings
record — compiling the same record twice yields identical instruction
lists, in order and content. -/
theorem spec_C9_theorem (s t : EnhancementSettings) (h : s = t) :
    generateEnhancementCommands s = generateEnhancementCommands t := by rw [h]

/-- Witness for `spec_C9_theorem`. -/
theorem spec_C9_witness :
    satSettings = satSettings ∧
    generateEnhancementCommands satSettings = generateEnhancementCommands satSettings :=
  ⟨rfl, spec_C9_theorem satSettings satSettings rfl⟩

/-- Claim C10 (confirmed): every compiled list ends with the `format`
instruction carrying the upper-cased output format, followed by the
`quality` instruction exactly when the format is `jpeg`; consequently no
settings record compiles to the empty list. -/
theorem spec_C10_theorem (s : EnhancementSettings) :
    (∃ pre, generateEnhancementCommands s =
      pre ++ ({ operation := "format", params := [fmtUpper s.format] } ::
        (if s.format = OutputFormat.jpeg then
          [{ operation := "quality", params := [jsNumToString s.quality] }]
         else []))) ∧
    generateEnhancementCommands s ≠ [] := by
  have hsplit : ∃ pre, generateEnhancementCommands s =
      pre ++ ({ operation := "format", params := [fmtUpper s.format] } ::
        (if s.format = OutputFormat.jpeg then
          [{ operation := "quality", params := [jsNumToString s.quality] }]
         else [])) := by
    rw [generateEnhancementCommands]
    exact append8_split _ _ _ _ _ _ _ _ _
  refine ⟨hsplit, ?_⟩
  obtain ⟨pre, hpre⟩ := hsplit
  intro hnil
  rw [hpre] at hnil
  simp at hnil

/-- Claim C3 (confirmed): the executor boundary always returns a result
object echoing the command and input path; an exception thrown by the
underlying IPC call is caught and converted into a `success = false`
result carrying the message, and a reply is reshaped with the output path
reported only on success. -/
theorem spec_C3_theorem (ipc : IpcEnv) (command inputPath outputPath : String) :
    ((executeCommand (some ipc) command inputPath outputPath).originalPath = inputPath ∧
     (executeCommand (some ipc) command inputPath outputPath).command = some command ∧
     (executeCommand (some ipc) command inputPath outputPath).enhancementType =
       extractEnhancementType command) ∧
    (∀ e, ipc command inputPath outputPath = Except.error e →
      executeCommand (some ipc) command inputPath outputPath =
        { success := false, error := some e, command := some command,
          originalPath := inputPath, enhancementType := extractEnhancementType command }) ∧
    (∀ reply, ipc command inputPath outputPath = Except.ok reply →
      (executeCommand (some ipc) command inputPath outputPath).success = reply.success ∧
      (executeCommand (some ipc) command inputPath outputPath).outputPath =
        (if reply.success then some outputPath else none) ∧
      (executeCommand (some ipc) command inputPath outputPath).error = reply.error) := by
  refine ⟨?_, ?_, ?_⟩
  · rcases h : ipc command inputPath outputPath with reply | e <;>
      simp [executeCommand, h]
  · intro e he
    simp [executeCommand, he]
  · intro reply hr
    simp [executeCommand, hr]

/-- Witness for `spec_C3_theorem`: a throwing IPC call is converted into
a returned failed result. -/
theorem spec_C3_witness :
    throwEnv "convert INPUT OUTPUT" "a.jpg" "b.jpg" = Except.error "spawn ENOENT" ∧
    executeCommand (some throwEnv) "convert INPUT OUTPUT" "a.jpg" "b.jpg" =
      { success := false, error := some "spawn ENOENT",
        command := some "convert INPUT OUTPUT", originalPath := "a.jpg",
        enhancementType := extractEnhancementType "convert INPUT OUTPUT" } :=
  ⟨rfl, (spec_C3_theorem throwEnv "convert INPUT OUTPUT" "a.jpg" "b.jpg").2.1
    "spawn ENOENT" rfl⟩

/-! ### Claim C1: chaining inside one job -/

/-- The executor echoes its input path in `originalPath`, in every
branch. -/
lemma executeCommand_originalPath (env : ExecEnv) (c i o : String) :
    (executeCommand env c i o).originalPath = i := by
  cases env with
  | none => rfl
  | some ipc => rcases h : ipc c i o with reply | e <;> simp [executeCommand, h]

/-- One result is recorded per command. -/
lemma enhanceImageGo_length (env : ExecEnv) (f d : String) (cmds : List ImageMagickCommand)
    (i : Nat) (cur : String) :
    (enhanceImageGo env f d cmds i cur).length = cmds.length := by
  induction cmds generalizing i cur with
  | nil => rfl
  | cons c rest ih => simp [enhanceImageGo, ih]

/-- The first recorded result's `originalPath` is the loop's current
input path. -/
lemma enhanceImageGo_getD_zero (env : ExecEnv) (f d : String)
    (cmds : List ImageMagickCommand) (i : Nat) (cur : String) (h : cmds ≠ []) :
    ((enhanceImageGo env f d cmds i cur).getD 0 dummyResult).originalPath = cur := by
  cases cmds with
  | nil => exact absurd rfl h
  | cons c rest => simp [enhanceImageGo, executeCommand_originalPath]

/-- Consecutive results of the loop: on success (with a truthy output
path) the next step's input is the reported output path; on failure the
next step still runs, its input path unchanged. -/
lemma enhanceImageGo_chain (env : ExecEnv) (f d : String) (cmds : List ImageMagickCommand)
    (i : Nat) (cur : String) (k : Nat)
    (hk : k + 1 < (enhanceImageGo env f d cmds i cur).length) :
    (((enhanceImageGo env f d cmds i cur).getD k dummyResult).success = true →
      jsTruthyOptStr ((enhanceImageGo env f d cmds i cur).getD k dummyResult).outputPath = true →
      ((enhanceImageGo env f d cmds i cur).getD (k + 1) dummyResult).originalPath =
        ((enhanceImageGo env f d cmds i cur).getD k dummyResult).outputPath.getD "") ∧
    (((enhanceImageGo env f d cmds i cur).getD k dummyResult).success = false →
      ((enhanceImageGo env f d cmds i cur).getD (k + 1) dummyResult).originalPath =
        ((enhanceImageGo env f d cmds i cur).getD k dummyResult).originalPath) := by
  induction cmds generalizing i cur k with
  | nil => simp [enhanceImageGo] at hk
  | cons c rest ih =>
    rw [enhanceImageGo] at hk ⊢
    cases k with
    | zero =>
      have hlen : 0 < (enhanceImageGo env f d rest (i + 1)
          (if (executeCommand env (buildImageMagickCommand c) cur
                (d ++ "/" ++ generateOutputFileName f c.operation i)).success &&
              jsTruthyOptStr (executeCommand env (buildImageMagickCommand c) cur
                (d ++ "/" ++ generateOutputFileName f c.operation i)).outputPath then
            (executeCommand env (buildImageMagickCommand c) cur
              (d ++ "/" ++ generateOutputFileName f c.operation i)).outputPath.getD cur
           else cur)).length := by
        simpa using hk
      have hrest : rest ≠ [] := by
        rw [enhanceImageGo_length] at hlen
        exact List.length_pos.mp hlen
      constructor
      · intro hs htr
        simp only [List.getD_cons_zero] at hs htr
        simp only [List.getD_cons_succ, List.getD_cons_zero]
        rw [enhanceImageGo_getD_zero env f d rest _ _ hrest]
        rw [hs] at *
        cases ho : (executeCommand env (buildImageMagickCommand c) cur
            (d ++ "/" ++ generateOutputFileName f c.operation i)).outputPath with
        | none => rw [ho] at htr; simp [jsTruthyOptStr] at htr
        | some s => simp [ho, htr, ho ▸ htr]
      · intro hf
        simp only [List.getD_cons_zero] at hf
        simp only [List.getD_cons_succ, List.getD_cons_zero]
        rw [enhanceImageGo_getD_zero env f d rest _ _ hrest]
        rw [hf]
        simp [executeCommand_originalPath]
    | succ k =>
      simp only [List.getD_cons_succ]
      apply ih
      simpa using hk

/-- Claim C1 (corrected): a job records exactly one result per
instruction; when instruction *k* succeeds (reporting a truthy output
path), instruction *k+1* is executed with that reported output path as
its input; when instruction *k* fails, instruction *k+1* is nevertheless
executed, its input path unchanged from instruction *k*'s — the chain
does not stop on failure, it just does not advance the input path. -/
theorem spec_C1_theorem (env : ExecEnv) (imagePath : String)
    (analysis : ImageAnalysisResult) (outputDir : String) (k : Nat)
    (hk : k + 1 < (enhanceImage env imagePath analysis outputDir).length) :
    (enhanceImage env imagePath analysis outputDir).length = analysis.commands.length ∧
    (((enhanceImage env imagePath analysis outputDir).getD k dummyResult).success = true →
      jsTruthyOptStr
        ((enhanceImage env imagePath analysis outputDir).getD k dummyResult).outputPath = true →
      ((enhanceImage env imagePath analysis outputDir).getD (k + 1) dummyResult).originalPath =
        ((enhanceImage env imagePath analysis outputDir).getD k dummyResult).outputPath.getD "") ∧
    (((enhanceImage env imagePath analysis outputDir).getD k dummyResult).success = false →
      ((enhanceImage env imagePath analysis outputDir).getD (k + 1) dummyResult).originalPath =
        ((enhanceImage env imagePath analysis outputDir).getD k dummyResult).originalPath) := by
  rw [enhanceImage] at hk ⊢
  by_cases hemp : analysis.commands.isEmpty
  · simp [hemp] at hk
  · simp only [hemp, if_false]
    exact ⟨enhanceImageGo_length env analysis.filename outputDir analysis.commands 0 imagePath,
      enhanceImageGo_chain env analysis.filename outputDir analysis.commands 0 imagePath k
        (by simpa [hemp] using hk)⟩

/-- Claim C1, counterexample to the claim as stated: with an executor
that always reports failure, a two-instruction job still records two
results — the second instruction is executed even though the first
failed, with the original input path. -/
theorem spec_C1_counterexample :
    (enhanceImage failEnv "in/photo.jpg" twoStepAnalysis "out").length = 2 ∧
    ((enhanceImage failEnv "in/photo.jpg" twoStepAnalysis "out").getD 0 dummyResult).success =
      false ∧
    ((enhanceImage failEnv "in/photo.jpg" twoStepAnalysis "out").getD 1
        dummyResult).originalPath = "in/photo.jpg" := by decide

/-- Witness for `spec_C1_theorem` on a two-instruction job with a
succeeding executor. -/
theorem spec_C1_witness :
    0 + 1 < (enhanceImage okEnv "in/photo.jpg" twoStepAnalysis "out").length ∧
    ((enhanceImage okEnv "in/photo.jpg" twoStepAnalysis "out").length =
      twoStepAnalysis.commands.length ∧
    (((enhanceImage okEnv "in/photo.jpg" twoStepAnalysis "out").getD 0 dummyResult).success =
        true →
      jsTruthyOptStr
        ((enhanceImage okEnv "in/photo.jpg" twoStepAnalysis "out").getD 0
          dummyResult).outputPath = true →
      ((enhanceImage okEnv "in/photo.jpg" twoStepAnalysis "out").getD (0 + 1)
          dummyResult).originalPath =
        ((enhanceImage okEnv "in/photo.jpg" twoStepAnalysis "out").getD 0
          dummyResult).outputPath.getD "") ∧
    (((enhanceImage okEnv "in/photo.jpg" twoStepAnalysis "out").getD 0 dummyResult).success =
        false →
      ((enhanceImage okEnv "in/photo.jpg" twoStepAnalysis "out").getD (0 + 1)
          dummyResult).originalPath =
        ((enhanceImage okEnv "in/photo.jpg" twoStepAnalysis "out").getD 0
          dummyResult).originalPath)) :=
  ⟨by decide, spec_C1_theorem okEnv "in/photo.jpg" twoStepAnalysis "out" 0 (by decide)⟩

/-! ### Claim C2: per-job isolation in the batch engine -/

/-- Assignment under a fresh key appends the entry. -/
lemma jsSet_fresh {α : Type} (m : List (String × α)) (k : String) (v : α)
    (h : k ∉ m.map Prod.fst) : jsSet m k v = m ++ [(k, v)] := by
  induction m with
  | nil => rfl
  | cons e rest ih =>
    simp only [List.map_cons, List.mem_cons] at h
    push_neg at h
    simp [jsSet, Ne.symm h.1, ih h.2]

/-- Reading back a freshly appended key. -/
lemma jsGet_append_self {α : Type} (m : List (String × α)) (k : String) (v : α)
    (h : k ∉ m.map Prod.fst) : jsGet (m ++ [(k, v)]) k = some v := by
  induction m with
  | nil => simp [jsGet]
  | cons e rest ih =>
    simp only [List.map_cons, List.mem_cons] at h
    push_neg at h
    simp only [List.cons_append, jsGet, if_neg (Ne.symm h.1)]
    exact ih h.2

/-- Appending an entry with a different key does not change a read. -/
lemma jsGet_append_ne {α : Type} (m : List (String × α)) (k p : String) (v : α)
    (h : p ≠ k) : jsGet (m ++ [(k, v)]) p = jsGet m p := by
  induction m with
  | nil => simp [jsGet, Ne.symm h]
  | cons e rest ih =>
    by_cases he : e.1 = p <;> simp [jsGet, he, ih]

/-- Invariant of the `enhanceBatch` fold: with pairwise-distinct job
paths (all fresh for the accumulator), the fold appends exactly one entry
per job, each job's entry holds its own caught result, and entries under
other keys are untouched. -/
lemma enhanceBatchWith_invariant
    (runJob : String → ImageAnalysisResult → Except String (List EnhancementResult))
    (images : List (String × ImageAnalysisResult))
    (acc : List (String × List EnhancementResult))
    (hnd : (images.map Prod.fst).Nodup)
    (hdisj : ∀ p ∈ acc.map Prod.fst, p ∉ images.map Prod.fst) :
    (images.foldl (fun a item => jsSet a item.1 (runJobCaught runJob item.1 item.2))
        acc).length = acc.length + images.length ∧
    (∀ p b, (p, b) ∈ images →
      jsGet (images.foldl (fun a item => jsSet a item.1 (runJobCaught runJob item.1 item.2))
          acc) p = some (runJobCaught runJob p b)) ∧
    (∀ p, p ∉ images.map Prod.fst →
      jsGet (images.foldl (fun a item => jsSet a item.1 (runJobCaught runJob item.1 item.2))
          acc) p = jsGet acc p) := by
  induction images generalizing acc with
  | nil => exact ⟨by simp, by simp, fun p _ => rfl⟩
  | cons item rest ih =>
    obtain ⟨q, a⟩ := item
    simp only [List.map_cons, List.nodup_cons] at hnd
    obtain ⟨hq, hndr⟩ := hnd
    have hq_acc : q ∉ acc.map Prod.fst := by
      intro hmem
      exact hdisj q hmem (by simp)
    have hset : jsSet acc q (runJobCaught runJob q a) =
        acc ++ [(q, runJobCaught runJob q a)] := jsSet_fresh acc q _ hq_acc
    have hdisj2 : ∀ p ∈ (jsSet acc q (runJobCaught runJob q a)).map Prod.fst,
        p ∉ rest.map Prod.fst := by
      intro p hp
      rw [hset] at hp
      simp only [List.map_append, List.mem_append] at hp
      rcases hp with hp | hp
      · intro hrest
        exact hdisj p hp (by simp [hrest])
      · simp only [List.map_cons, List.map_nil, List.mem_cons, List.not_mem_nil,
          or_false] at hp
        rw [hp]
        exact hq
    obtain ⟨ihlen, ihget, ihother⟩ := ih (jsSet acc q (runJobCaught runJob q a)) hndr hdisj2
    refine ⟨?_, ?_, ?_⟩
    · simp only [List.foldl_cons]
      rw [ihlen, hset]
      simp only [List.length_append, List.length_cons, List.length_nil]
      omega
    · intro p b hpb
      rcases List.mem_cons.mp hpb with heq | h2
      · have h1 : p = q := congrArg Prod.fst heq
        have hb : b = a := congrArg Prod.snd heq
        rw [h1, hb]
        simp only [List.foldl_cons]
        rw [ihother q hq, hset]
        exact jsGet_append_self acc q _ hq_acc
      · simp only [List.foldl_cons]
        exact ihget p b h2
    · intro p hp
      simp only [List.map_cons, List.mem_cons] at hp
      push_neg at hp
      simp only [List.foldl_cons]
      rw [ihother p hp.2, hset, jsGet_append_ne acc q p _ hp.1]

/-- Claim C2 (corrected): for a batch whose job paths are pairwise
distinct, the engine records exactly one result entry per job (the result
set has length N); each job's entry is its own caught outcome; a job
whose run throws is recorded as the single `batch_error` failed result;
and the entries of all jobs other than a distinguished failing path are
identical to those produced by a runner that agrees everywhere off that
path — one job's failure does not change any other job's recorded
results. -/
theorem spec_C2_theorem
    (runJob runJob2 : String → ImageAnalysisResult → Except String (List EnhancementResult))
    (images : List (String × ImageAnalysisResult)) (failPath : String)
    (hnd : (images.map Prod.fst).Nodup)
    (hagree : ∀ item ∈ images, item.1 ≠ failPath →
      runJob item.1 item.2 = runJob2 item.1 item.2) :
    (enhanceBatchWith runJob images).length = images.length ∧
    (∀ item ∈ images, jsGet (enhanceBatchWith runJob images) item.1 =
      some (runJobCaught runJob item.1 item.2)) ∧
    (∀ item ∈ images, ∀ e, runJob item.1 item.2 = Except.error e →
      jsGet (enhanceBatchWith runJob images) item.1 =
        some [{ success := false, error := some e, originalPath := item.1,
                enhancementType := "batch_error" }]) ∧
    (∀ item ∈ images, item.1 ≠ failPath →
      jsGet (enhanceBatchWith runJob images) item.1 =
        jsGet (enhanceBatchWith runJob2 images) item.1) := by
  obtain ⟨hlen, hget, -⟩ :=
    enhanceBatchWith_invariant runJob images [] hnd (by simp)
  obtain ⟨-, hget2, -⟩ :=
    enhanceBatchWith_invariant runJob2 images [] hnd (by simp)
  simp only [enhanceBatchWith]
  refine ⟨by simpa using hlen, ?_, ?_, ?_⟩
  · rintro ⟨p, b⟩ hit
    exact hget p b hit
  · rintro ⟨p, b⟩ hit e he
    dsimp only at he ⊢
    rw [hget p b hit, runJobCaught, he]
  · rintro ⟨p, b⟩ hit hne
    dsimp only at hne ⊢
    have ha : runJob p b = runJob2 p b := hagree (p, b) hit hne
    rw [hget p b hit, hget2 p b hit, runJobCaught, runJobCaught, ha]

/-- Claim C2, counterexample to the claim as stated: two jobs that share
one path produce a single result entry, because the engine keys its
result object by the job's path — the result set has length 1, not 2. -/
theorem spec_C2_counterexample :
    (enhanceBatch none [("a.jpg", emptyAnalysis "a.jpg"), ("a.jpg", emptyAnalysis "a.jpg")]
        "out").length = 1 ∧
    (enhanceBatch none [("a.jpg", emptyAnalysis "a.jpg"), ("a.jpg", emptyAnalysis "a.jpg")]
        "out").length ≠ 2 := by decide

/-- Witness for `spec_C2_theorem`: a two-job batch where the job at
`b.jpg` throws while the other runner succeeds everywhere. -/
theorem spec_C2_witness :
    ((imagesW.map Prod.fst).Nodup ∧
      (∀ item ∈ imagesW, item.1 ≠ "b.jpg" →
        runJobFail item.1 item.2 = runJobOk item.1 item.2)) ∧
    ((enhanceBatchWith runJobFail imagesW).length = imagesW.length ∧
     (∀ item ∈ imagesW, jsGet (enhanceBatchWith runJobFail imagesW) item.1 =
       some (runJobCaught runJobFail item.1 item.2)) ∧
     (∀ item ∈ imagesW, ∀ e, runJobFail item.1 item.2 = Except.error e →
       jsGet (enhanceBatchWith runJobFail imagesW) item.1 =
         some [{ success := false, error := some e, originalPath := item.1,
                 enhancementType := "batch_error" }]) ∧
     (∀ item ∈ imagesW, item.1 ≠ "b.jpg" →
       jsGet (enhanceBatchWith runJobFail imagesW) item.1 =
         jsGet (enhanceBatchWith runJobOk imagesW) item.1)) :=
  ⟨⟨by decide, by simp [imagesW, runJobFail, runJobOk]⟩,
    spec_C2_theorem runJobFail runJobOk imagesW "b.jpg" (by decide)
      (by simp [imagesW, runJobFail, runJobOk])⟩

/-! ### Claim C7: unrecognized operation keys -/

/-- An unknown command falls through every branch of the interpreter:
nothing is applied, the pipeline is unchanged, and the warning is
logged. -/
lemma parseAndApplyEdit_unknown (sp : List SharpOp) (instruction : String)
    (hcmd : (jsSplit (jsToLower instruction) ' ').headD "" ∉ knownEditCommands) :
    parseAndApplyEdit sp instruction =
      { sharpOps := sp, applied := false,
        description := "Unknown command: " ++ (jsSplit (jsToLower instruction) ' ').headD "",
        warned := true } := by
  simp only [knownEditCommands, List.mem_cons, List.not_mem_nil, or_false] at hcmd
  push_neg at hcmd
  obtain ⟨h1, h2, h3, h4, h5, h6, h7, h8, h9⟩ := hcmd
  simp only [parseAndApplyEdit]
  rw [if_neg h1, if_neg h2, if_neg h3, if_neg h4, if_neg h5, if_neg h6, if_neg h7,
    if_neg h8, if_neg h9]

/-- Claim C7 (corrected): in the editing service's interpreter an
unrecognized operation key is skipped — the pipeline is unchanged, the
warning signal is set, no error is raised — and the rest of the chain
proceeds exactly as if the unknown instruction were absent.  In the
ImageMagick command builder, by contrast, an unrecognized key is not
skipped but degraded to the bare copy command (no warning, still no
fatal error). -/
theorem spec_C7_theorem (sp : List SharpOp) (instruction op : String)
    (params : List (String × ℚ))
    (hcmd : (jsSplit (jsToLower instruction) ' ').headD "" ∉ knownEditCommands)
    (hop : op ∉ knownBuildOps) :
    parseAndApplyEdit sp instruction =
      { sharpOps := sp, applied := false,
        description := "Unknown command: " ++ (jsSplit (jsToLower instruction) ' ').headD "",
        warned := true } ∧
    (∀ pre post sp2 descs,
      applyEditInstructions (pre ++ instruction :: post) sp2 descs =
        applyEditInstructions (pre ++ post) sp2 descs) ∧
    buildSingleOperation op params = "convert INPUT OUTPUT" := by
  refine ⟨parseAndApplyEdit_unknown sp instruction hcmd, ?_, ?_⟩
  · intro pre post sp2 descs
    induction pre generalizing sp2 descs with
    | nil =>
      simp only [List.nil_append, applyEditInstructions]
      rw [parseAndApplyEdit_unknown sp2 instruction hcmd]
      simp
    | cons inst2 pre2 ih =>
      simp only [List.cons_append, applyEditInstructions]
      cases hap : (parseAndApplyEdit sp2 inst2).applied <;> simp [hap, ih]
  · simp only [knownBuildOps, List.mem_cons, List.not_mem_nil, or_false] at hop
    push_neg at hop
    obtain ⟨g1, g2, g3, g4, g5, g6, g7⟩ := hop
    simp [buildSingleOperation, g1, g2, g3, g4, g5, g6, g7]

/-- Claim C7, counterexample to the claim as stated: in the part_009
pipeline an instruction with the unrecognized key `vintage` is not
skipped — the executor is invoked for it with the degraded bare copy
command, and it occupies a step of the chain. -/
theorem spec_C7_counterexample :
    buildSingleOperation "vintage" [] = "convert INPUT OUTPUT" ∧
    (enhanceImage okEnv "in/photo.jpg" unknownOpAnalysis "out").length = 1 ∧
    ((enhanceImage okEnv "in/photo.jpg" unknownOpAnalysis "out").getD 0 dummyResult).command =
      some "convert INPUT OUTPUT" := by decide

/-- Witness for `spec_C7_theorem` at the unknown instruction
`vintage 50`. -/
theorem spec_C7_witness :
    ((jsSplit (jsToLower "vintage 50") ' ').headD "" ∉ knownEditCommands ∧
      "vintage" ∉ knownBuildOps) ∧
    (parseAndApplyEdit [] "vintage 50" =
      { sharpOps := [], applied := false,
        description := "Unknown command: " ++ (jsSplit (jsToLower "vintage 50") ' ').headD "",
        warned := true } ∧
     (∀ pre post sp2 descs,
       applyEditInstructions (pre ++ "vintage 50" :: post) sp2 descs =
         applyEditInstructions (pre ++ post) sp2 descs) ∧
     buildSingleOperation "vintage" [] = "convert INPUT OUTPUT") :=
  ⟨⟨by decide, by decide⟩,
    spec_C7_theorem [] "vintage 50" "vintage" [] (by decide) (by decide)⟩

/-! ### Claim C8: artifact naming -/

/-- `Nat.digitChar` of a digit has the expected code point. -/
lemma digitChar_toNat {d : Nat} (h : d < 10) : (Nat.digitChar d).toNat = 48 + d := by
  interval_cases d <;> decide

/-- `Nat.digitChar` of a digit is a digit character. -/
lemma digitChar_isDigit {d : Nat} (h : d < 10) : (Nat.digitChar d).isDigit = true := by
  interval_cases d <;> decide

/-- `decRevAux` computes the reversed decimal digits: reading them back
recovers the number. -/
lemma decRevAux_val : ∀ fuel n, n ≤ fuel → decValRev (decRevAux fuel n) = n := by
  intro fuel
  induction fuel with
  | zero => intro n hn; interval_cases n; rfl
  | succ fuel ih =>
    intro n hn
    by_cases hz : n = 0
    · subst hz; rfl
    · have hlt : n % 10 < 10 := Nat.mod_lt _ (by norm_num)
      have hdiv : n / 10 ≤ fuel := by
        have := Nat.div_lt_self (Nat.pos_of_ne_zero hz) (by norm_num : 1 < 10)
        omega
      simp only [decRevAux, if_neg hz, decValRev, digitChar_toNat hlt, ih _ hdiv]
      omega

/-- Every character `decRevAux` produces is a digit. -/
lemma decRevAux_digits : ∀ fuel n, ∀ c ∈ decRevAux fuel n, c.isDigit = true := by
  intro fuel
  induction fuel with
  | zero => intro n c hc; simp [decRevAux] at hc
  | succ fuel ih =>
    intro n c hc
    by_cases hz : n = 0
    · simp [decRevAux, hz] at hc
    · simp only [decRevAux, if_neg hz, List.mem_cons] at hc
      rcases hc with rfl | hc
      · exact digitChar_isDigit (Nat.mod_lt _ (by norm_num))
      · exact ih _ c hc

/-- Every character of a `decString` is a digit. -/
lemma decString_digits (n : Nat) : ∀ c ∈ (decString n).data, c.isDigit = true := by
  intro c hc
  by_cases hz : n = 0
  · simp [decString, hz] at hc
    subst hc; decide
  · simp only [decString, if_neg hz] at hc
    rw [List.mem_reverse] at hc
    exact decRevAux_digits n n c hc

/-- Reading a `decString` back recovers the number. -/
lemma decString_val (n : Nat) : decValRev (decString n).data.reverse = n := by
  by_cases hz : n = 0
  · subst hz; rfl
  · simp only [decString, if_neg hz]
    rw [show ((String.mk (decRevAux n n).reverse).data).reverse = decRevAux n n from by
      simp]
    exact decRevAux_val n n le_rfl

/-- `decString` is injective on character data. -/
lemma decString_inj {m n : Nat} (h : (decString m).data = (decString n).data) : m = n := by
  have h2 := congrArg (fun l => decValRev l.reverse) h
  simpa only [decString_val] using h2

/-- Two equal lists each of the shape `digits ++ '_' :: rest`, with no
underscore inside the digit runs, have equal digit runs and equal
rests. -/
lemma digit_run_split : ∀ (u v a b : List Char), (∀ c ∈ u, c.isDigit = true) →
    (∀ c ∈ v, c.isDigit = true) → u ++ '_' :: a = v ++ '_' :: b → u = v ∧ a = b := by
  intro u
  induction u with
  | nil =>
    intro v a b _ hv h
    cases v with
    | nil => simpa using h
    | cons d vs =>
      simp only [List.nil_append, List.cons_append, List.cons.injEq] at h
      have : ('_' : Char).isDigit = true := h.1 ▸ hv d (by simp)
      simp at this
  | cons c us ih =>
    intro v a b hu hv h
    cases v with
    | nil =>
      simp only [List.nil_append, List.cons_append, List.cons.injEq] at h
      have : ('_' : Char).isDigit = true := h.1.symm ▸ hu c (by simp)
      simp at this
    | cons d vs =>
      simp only [List.cons_append, List.cons.injEq] at h
      obtain ⟨rfl, h2⟩ := h
      obtain ⟨h3, h4⟩ := ih vs a b (fun x hx => hu x (by simp [hx]))
        (fun x hx => hv x (by simp [hx])) h2
      exact ⟨by rw [h3], h4⟩

/-- `takeWhile` runs through a prefix on which the predicate holds. -/
lemma takeWhile_append_of_all {p : Char → Bool} : ∀ (l₁ l₂ : List Char),
    (∀ c ∈ l₁, p c = true) → (l₁ ++ l₂).takeWhile p = l₁ ++ l₂.takeWhile p := by
  intro l₁
  induction l₁ with
  | nil => intro l₂ _; rfl
  | cons c cs ih =>
    intro l₂ hall
    rw [List.cons_append, List.takeWhile_cons, if_pos (hall c (by simp)),
      ih l₂ (fun x hx => hall x (by simp [hx])), List.cons_append]

/-- The regex strip of `generateOutputFileName` removes a well-formed
final extension. -/
lemma jsStripExt_concat (base e : String) (he : e.data ≠ [])
    (hclean : ∀ c ∈ e.data, c ≠ '.' ∧ c ≠ '/') :
    jsStripExt (base ++ "." ++ e) = base := by
  have hdata : (base ++ "." ++ e).data = base.data ++ '.' :: e.data := by
    rw [String.data_append, String.data_append,
      show ("." : String).data = ['.'] from rfl]
    simp
  have hrev : (base ++ "." ++ e).data.reverse = e.data.reverse ++ '.' :: base.data.reverse := by
    rw [hdata]
    simp
  have hall : ∀ c ∈ e.data.reverse, (fun c => !(c == '.' || c == '/')) c = true := by
    intro c hc
    rw [List.mem_reverse] at hc
    obtain ⟨h1, h2⟩ := hclean c hc
    simp [h1, h2]
  have htake : (base ++ "." ++ e).data.reverse.takeWhile (fun c => !(c == '.' || c == '/')) =
      e.data.reverse := by
    rw [hrev, takeWhile_append_of_all _ _ hall]
    simp
  have hdrop : (base ++ "." ++ e).data.reverse.drop e.data.reverse.length =
      '.' :: base.data.reverse := by
    rw [hrev]
    exact List.drop_left _ _
  have hne : e.data.reverse.isEmpty = false := by
    cases hre : e.data.reverse with
    | nil => exact absurd (by simpa using congrArg List.reverse hre) he
    | cons x xs => rfl
  simp only [jsStripExt, htake, hdrop, hne]
  simp

/-- The `split('.').pop()` of `generateOutputFileName` extracts a
well-formed final extension. -/
lemma jsExtOf_concat (base e : String) (he : e.data ≠ [])
    (hclean : ∀ c ∈ e.data, c ≠ '.' ∧ c ≠ '/') :
    jsExtOf (base ++ "." ++ e) = e := by
  have hdata : (base ++ "." ++ e).data = base.data ++ '.' :: e.data := by
    rw [String.data_append, String.data_append,
      show ("." : String).data = ['.'] from rfl]
    simp
  have hrev : (base ++ "." ++ e).data.reverse = e.data.reverse ++ '.' :: base.data.reverse := by
    rw [hdata]
    simp
  have hcont : (base ++ "." ++ e).data.contains '.' = true := by
    rw [hdata]
    exact List.elem_eq_true_of_mem (by simp)
  have hall : ∀ c ∈ e.data.reverse, (fun c => c != '.') c = true := by
    intro c hc
    rw [List.mem_reverse] at hc
    simp [(hclean c hc).1]
  have htake : (base ++ "." ++ e).data.reverse.takeWhile (fun c => c != '.') =
      e.data.reverse := by
    rw [hrev, takeWhile_append_of_all _ _ hall]
    simp
  simp only [jsExtOf, hcont, if_pos, htake]
  rw [show (String.mk e.data.reverse.reverse) = e from by simp]

/-- Cancelling the common name parts of two generated artifact names
forces their step-index digit runs to agree. -/
lemma artifact_digits_eq {A E O₁ O₂ D₁ D₂ : List Char}
    (hd₁ : ∀ c ∈ D₁, c.isDigit = true) (hd₂ : ∀ c ∈ D₂, c.isDigit = true)
    (h : A ++ '_' :: (O₁ ++ '_' :: (D₁ ++ '.' :: E)) =
      A ++ '_' :: (O₂ ++ '_' :: (D₂ ++ '.' :: E))) : D₁ = D₂ := by
  have h1 := List.append_cancel_left h
  injection h1 with _ h2
  have h3 := congrArg List.reverse h2
  simp only [List.reverse_append, List.reverse_cons, List.append_assoc,
    List.singleton_append, List.cons_append, List.nil_append] at h3
  have h4 := List.append_cancel_left h3
  injection h4 with _ h5
  have hrev : D₁.reverse = D₂.reverse :=
    (digit_run_split D₁.reverse D₂.reverse _ _
      (fun c hc => hd₁ c (List.mem_reverse.mp hc))
      (fun c hc => hd₂ c (List.mem_reverse.mp hc)) h5).1
  exact List.reverse_injective hrev

/-- Claim C8 (confirmed): artifact names are a pure function of the
original filename, the operation name and the 1-based step index; two
distinct steps of one job never collide (whatever the two operation
names are), and a well-formed original extension is preserved verbatim
at the end of the generated name. -/
theorem spec_C8_theorem :
    (∀ (name opA opB : String) (i j : Nat), i ≠ j →
      generateOutputFileName name opA i ≠ generateOutputFileName name opB j) ∧
    (∀ (base e op : String) (i : Nat), e.data ≠ [] →
      (∀ c ∈ e.data, c ≠ '.' ∧ c ≠ '/') →
      generateOutputFileName (base ++ "." ++ e) op i =
        base ++ "_" ++ op ++ "_" ++ decString (i + 1) ++ "." ++ e) := by
  constructor
  · intro name opA opB i j hij heq
    have hd := congrArg String.data heq
    simp only [generateOutputFileName, String.data_append,
      show ("_" : String).data = ['_'] from rfl,
      show ("." : String).data = ['.'] from rfl,
      List.append_assoc, List.singleton_append, List.cons_append] at hd
    have hDeq : (decString (i + 1)).data = (decString (j + 1)).data :=
      artifact_digits_eq (decString_digits (i + 1)) (decString_digits (j + 1)) hd
    have := decString_inj hDeq
    omega
  · intro base e op i he hclean
    rw [generateOutputFileName, jsStripExt_concat base e he hclean,
      jsExtOf_concat base e he hclean]

/-- Witness for `spec_C8_theorem`: steps 1 and 2 of one job produce
distinct names, and the `jpg` extension is preserved. -/
theorem spec_C8_witness :
    ((0 : Nat) ≠ 1 ∧
      generateOutputFileName "photo.jpg" "brighten" 0 ≠
        generateOutputFileName "photo.jpg" "sharpen" 1) ∧
    (("jpg" : String).data ≠ [] ∧
      generateOutputFileName ("photo" ++ "." ++ "jpg") "modulate" 0 =
        "photo" ++ "_" ++ "modulate" ++ "_" ++ decString (0 + 1) ++ "." ++ "jpg") :=
  ⟨⟨by decide, spec_C8_theorem.1 "photo.jpg" "brighten" "sharpen" 0 1 (by decide)⟩,
   ⟨by decide, spec_C8_theorem.2 "photo" "jpg" "modulate" 0 (by decide) (by decide)⟩⟩

end ShootCleaner
